import Mathlib

/-!
# Verification of the media-scout terminal media inspector

A shallow embedding of `src/main.rs`: the extraction engine
(`extract_codec`, `extract_resolution`, `extract_frame_rate`,
`extract_bitrate`), the catalogue and filter engine
(`get_filtered_files`), and the interaction state machine (`step`).

Strings are modelled at character granularity (`List Char`); all the
tokens the program matches on are ASCII, where Rust's byte indices and
character indices coincide.  Rust's `f64` parsing/printing is modelled
by `FloatVal`: the grammar of `str::parse::<f64>` is kept (sign,
integer/fraction digits, optional exponent, the case-insensitive
`inf`/`infinity`/`nan` literals, overflow saturating to infinity), with
finite values held as exact scaled decimals, and
`format!("\x7b:.1\x7d", x)` prints "inf"/"-inf"/"NaN" or rounds to one
fractional digit, half to even.
-/

set_option autoImplicit false
set_option maxRecDepth 8192

/-! ## Character-list string primitives -/

/-- `needle` is a leading segment of `hay` (Rust `str::starts_with`). -/
def startsWithL : List Char → List Char → Bool
  | _, [] => true
  | [], _ :: _ => false
  | a :: as_, b :: bs => a == b && startsWithL as_ bs

/-- Substring containment (Rust `str::contains` with a `&str` pattern). -/
def strContainsL : List Char → List Char → Bool
  | [], needle => needle.isEmpty
  | a :: t, needle => startsWithL (a :: t) needle || strContainsL t needle

/-- Substring containment on `String`s. -/
def strContains (hay needle : String) : Bool :=
  strContainsL hay.toList needle.toList

/-- Split at every occurrence of `sep`; `n` separators yield `n + 1` parts. -/
def splitOnChar (sep : Char) : List Char → List (List Char)
  | [] => [[]]
  | c :: t =>
    if c = sep then [] :: splitOnChar sep t
    else
      match splitOnChar sep t with
      | [] => [[c]]
      | l :: ls => (c :: l) :: ls

/-- Strip one trailing carriage return (part of Rust `str::lines`). -/
def dropCR (l : List Char) : List Char :=
  if l.getLast? = some '\r' then l.dropLast else l

/-- Rust `str::lines`: split on `'\n'`, drop a final empty segment produced
by a trailing newline, and strip a trailing `'\r'` from each line. -/
def rustLines (s : List Char) : List (List Char) :=
  let ps := splitOnChar '\n' s
  (if ps.getLast? = some [] then ps.dropLast else ps).map dropCR

/-- Index of the first occurrence of `c` (Rust `str::find` on a char). -/
def idxOfL (c : Char) : List Char → Option Nat
  | [] => none
  | a :: t => if a == c then some 0 else (idxOfL c t).map Nat.succ

/-- Rust `char::is_whitespace`: the Unicode White_Space property
(U+0009..U+000D, space, NEL, NBSP, ogham space, U+2000..U+200A, line
and paragraph separators, narrow NBSP, math space, ideographic space). -/
def isRustWhitespace (c : Char) : Bool :=
  let n := c.toNat
  (9 ≤ n && n ≤ 13) || n == 32 || n == 133 || n == 160 || n == 5760 ||
    (8192 ≤ n && n ≤ 8202) || n == 8232 || n == 8233 || n == 8239 || n == 8287 || n == 12288

/-- Rust `str::trim`: drop Unicode whitespace from both ends. -/
def trimL (l : List Char) : List Char :=
  ((l.dropWhile isRustWhitespace).reverse.dropWhile isRustWhitespace).reverse

/-- Rust `str::replace("\"", "")`: delete every double-quote character. -/
def stripQuotes (l : List Char) : List Char :=
  l.filter (fun c => c != '"')

/-- The half-open slice `l[a..b]` (Rust `&line[a..b]` on ASCII text). -/
def sliceL (l : List Char) (a b : Nat) : List Char :=
  (l.drop a).take (b - a)

/-! ## Decimal parsing and formatting (exact-decimal model of `f64`) -/

/-- Value of a digit string, most significant first. -/
def digitsToNat (ds : List Char) : Nat :=
  ds.foldl (fun a c => a * 10 + (c.toNat - 48)) 0

/-- A non-empty, all-digit exponent body. -/
def parseExpDigits (t : List Char) : Option Int :=
  if t.isEmpty then none
  else if t.all Char.isDigit then some (digitsToNat t : Int)
  else none

/-- Exponent with optional sign, as in `e+07`. -/
def parseExpPart : List Char → Option Int
  | '+' :: t => parseExpDigits t
  | '-' :: t => (parseExpDigits t).map Int.neg
  | t => parseExpDigits t

/-- An exact decimal value `num / 10 ^ scale` (the finite values `f64`
takes in this program are decimal literals scaled by powers of ten). -/
structure DecValue where
  num : Int
  scale : Nat
  deriving DecidableEq

/-- An `f64` as this program can observe it: a finite exact decimal,
a signed infinity, or NaN. -/
inductive FloatVal where
  | finite (v : DecValue)
  | inf (neg : Bool)
  | nan
  deriving DecidableEq

/-- ASCII lower-casing (the case folding of Rust's float grammar). -/
def toLowerAscii (c : Char) : Char :=
  if 'A' ≤ c ∧ c ≤ 'Z' then Char.ofNat (c.toNat + 32) else c

/-- The `inf`/`infinity`/`nan` literals of Rust `f64::from_str`,
matched case-insensitively against the whole (sign-stripped) input. -/
def parseSpecial? (s : List Char) : Option FloatVal :=
  let t := s.map toLowerAscii
  if t = "inf".toList ∨ t = "infinity".toList then some (FloatVal.inf false)
  else if t = "nan".toList then some FloatVal.nan
  else none

/-- Smallest magnitude (scaled by `10 ^ scale`) that `f64` parsing
rounds up to infinity: `2 ^ 1024 - 2 ^ 970`, the round-ties-to-even
midpoint above the largest finite double. -/
def f64OverflowNum (scale : Nat) : Nat :=
  (2 ^ 1024 - 2 ^ 970) * 10 ^ scale

/-- Build a non-negative parsed value, saturating to infinity exactly
where `f64` parsing overflows. -/
def satFin (n scale : Nat) : FloatVal :=
  if f64OverflowNum scale ≤ n then FloatVal.inf false
  else FloatVal.finite ⟨(n : Int), scale⟩

/-- Rust float negation as observed through parsing (`-nan` still
prints "NaN", so its sign is not tracked). -/
def negFloat : FloatVal → FloatVal
  | FloatVal.finite v => FloatVal.finite ⟨-v.num, v.scale⟩
  | FloatVal.inf b => FloatVal.inf (!b)
  | FloatVal.nan => FloatVal.nan

/-- Unsigned float literal: `inf`/`infinity`/`nan`, or digits with an
optional `.` and fraction digits (at least one digit overall) and an
optional `e`/`E` exponent; nothing else. -/
def parseUdec (s : List Char) : Option FloatVal :=
  match parseSpecial? s with
  | some f => some f
  | none =>
    let d1 := s.takeWhile Char.isDigit
    let r1 := s.dropWhile Char.isDigit
    let d2 := match r1 with
      | '.' :: t => t.takeWhile Char.isDigit
      | _ => []
    let r2 := match r1 with
      | '.' :: t => t.dropWhile Char.isDigit
      | _ => r1
    if d1.isEmpty && d2.isEmpty then none
    else
      let n := digitsToNat (d1 ++ d2)
      match r2 with
      | [] => some (satFin n d2.length)
      | e :: t =>
        if e = 'e' ∨ e = 'E' then
          match parseExpPart t with
          | some k =>
            some (if 0 ≤ k then satFin (n * 10 ^ k.toNat) d2.length
                  else satFin n (d2.length + (-k).toNat))
          | none => none
        else none

/-- Rust `str::parse::<f64>`: optional sign, then a special literal or
a decimal literal, with overflow saturating to infinity.  Finite values
are kept exact: the rounding to the nearest binary double is not
modelled, which can move the final printed digit when the exact decimal
and its nearest double fall on opposite sides of a tenth midpoint
(e.g. 0.35), but never changes the printed SHAPE. -/
def parseDec? : List Char → Option FloatVal
  | '+' :: t => parseUdec t
  | '-' :: t => (parseUdec t).map negFloat
  | s => parseUdec s

/-- Division by `1_000_000.0`: exact on finite values (it cannot
overflow), identity on infinities and NaN. -/
def divMega : FloatVal → FloatVal
  | FloatVal.finite v => FloatVal.finite ⟨v.num, v.scale + 6⟩
  | f => f

/-- Round `n / 10 ^ scale` to the nearest number of tenths, ties to
even (the rounding of Rust's `\x7b:.1\x7d` formatting, applied to the
exact decimal rather than the nearest binary double). -/
def roundTenths (n scale : Nat) : Nat :=
  let m := 10 ^ scale
  let x := n * 10
  let fl := x / m
  let r := x % m
  if m < 2 * r then fl + 1
  else if 2 * r < m then fl
  else if fl % 2 = 0 then fl else fl + 1

/-- Print `n` tenths as `intpart.digit`. -/
def formatTenths (n : Nat) : String :=
  toString (n / 10) ++ "." ++ toString (n % 10)

/-- Rust `format!("\x7b:.1\x7d", v)`: "inf"/"-inf"/"NaN" on non-finite
values, otherwise one fractional digit.  (The sign of an exact zero is
not tracked, so a literal "-0" would print "0.0" where Rust prints
"-0.0"; no probe report carries a negative bitrate.) -/
def formatOneFrac : FloatVal → String
  | FloatVal.nan => "NaN"
  | FloatVal.inf true => "-inf"
  | FloatVal.inf false => "inf"
  | FloatVal.finite v =>
    if v.num < 0 then "-" ++ formatTenths (roundTenths v.num.natAbs v.scale)
    else formatTenths (roundTenths v.num.toNat v.scale)

/-! ## Extraction engine (`App::extract_*` in `main.rs`) -/

/-- `App::extract_codec`: ordered whole-text substring checks. -/
def extract_codec (output : String) : String :=
  if strContains output "h264" then "H.264"
  else if strContains output "hevc" || strContains output "h265" then "H.265"
  else if strContains output "vp9" then "VP9"
  else if strContains output "av01" then "AV1"
  else if strContains output "hap" then "Hap"
  else if strContains output "mjpeg" then "MJPEG"
  else "Unknown"

/-- Loop body of `App::extract_resolution`: scan lines; on a line with
both "width" and "height", return on a known token pair, otherwise keep
scanning. -/
def resolutionGo : List (List Char) → String
  | [] => "Unknown"
  | line :: rest =>
    if strContainsL line ("width".toList) && strContainsL line ("height".toList) then
      if strContainsL line ("1920".toList) && strContainsL line ("1080".toList) then "1920x1080"
      else if strContainsL line ("1280".toList) && strContainsL line ("720".toList) then "1280x720"
      else if strContainsL line ("3840".toList) && strContainsL line ("2160".toList) then "3840x2160"
      else resolutionGo rest
    else resolutionGo rest

/-- `App::extract_resolution`. -/
def extract_resolution (output : String) : String :=
  resolutionGo (rustLines output.toList)

/-- `App::extract_frame_rate`: ordered whole-text substring checks. -/
def extract_frame_rate (output : String) : String :=
  if strContains output "25/1" || strContains output "\"25\"" then "25"
  else if strContains output "30/1" || strContains output "\"30\"" then "30"
  else if strContains output "24/1" || strContains output "\"24\"" then "24"
  else if strContains output "60/1" || strContains output "\"60\"" then "60"
  else "Unknown"

/-- The inner if-let chain of `App::extract_bitrate` on one line:
first colon, first comma after it, slice strictly between, `trim`,
strip quotes, parse. -/
def bitrateLineVal? (line : List Char) : Option FloatVal :=
  match idxOfL ':' line with
  | none => none
  | some start =>
    match idxOfL ',' (line.drop start) with
    | none => none
    | some e => parseDec? (stripQuotes (trimL (sliceL line (start + 1) (start + e))))

/-- Loop of `App::extract_bitrate`: on a line containing "bit_rate" but
not "max_bit_rate", return the parsed value in Mbps; on any failure the
loop continues with the remaining lines. -/
def bitrateGo : List (List Char) → String
  | [] => "Unknown"
  | line :: rest =>
    if strContainsL line ("bit_rate".toList) && !strContainsL line ("max_bit_rate".toList) then
      match bitrateLineVal? line with
      | some q => formatOneFrac (divMega q)
      | none => bitrateGo rest
    else bitrateGo rest

/-- `App::extract_bitrate`. -/
def extract_bitrate (output : String) : String :=
  bitrateGo (rustLines output.toList)

/-! ## Data model (`MediaInfo`, `FilterOptions`, filters, modes) -/

/-- `MediaInfo` in `main.rs`: one analyzed file. -/
structure MediaInfo where
  name : String
  container : String
  codec : String
  resolution : String
  frame_rate : String
  bitrate : String
  path : String
  raw_output : String
  deriving DecidableEq

/-- `FilterOptions` in `main.rs`. -/
structure FilterOptions where
  containers : List String
  codecs : List String
  resolutions : List String
  frame_rates : List String
  bitrates : List String
  deriving DecidableEq

/-- `FilterOptions::default()`. -/
def filterOptionsDefault : FilterOptions where
  containers := ["mp4", "mov", "avi", "mkv", "jpg", "png"]
  codecs := ["H.264", "H.265", "VP9", "AV1", "Hap", "DXV3"]
  resolutions := ["1920x1080", "1280x720", "3840x2160", "2560x1440"]
  frame_rates := ["24", "25", "30", "50", "60"]
  bitrates := ["1", "5", "10", "15", "20"]

/-- `FilterType` in `main.rs`. -/
inductive FilterType where
  | Container
  | Codec
  | Resolution
  | FrameRate
  | Bitrate
  deriving DecidableEq

/-- `ActiveFilter` in `main.rs`. -/
structure ActiveFilter where
  filter_type : FilterType
  value : String
  deriving DecidableEq

/-- `AppMode` in `main.rs` (spec names: Browsing, AddingFile,
ViewingRawOutput, ViewingHelp). -/
inductive AppMode where
  | Normal
  | AddFile
  | ShowRawOutput
  | Help
  deriving DecidableEq

/-- `App` in `main.rs`.  `selected` is `table_state.selected()`;
`input` is the text buffer's value; the notification keeps only its
message (its `Instant` timestamp, like `last_scan_time`, is wall-clock
state outside the embedding). -/
structure AppState where
  media_files : List MediaInfo
  selected : Option Nat
  filter_options : FilterOptions
  active_filters : List ActiveFilter
  mode : AppMode
  input : String
  selected_tab : Nat
  raw_output_scroll : Nat
  notification : Option String
  deriving DecidableEq

/-- `App::new()`: empty catalogue, selection at 0, mode Normal. -/
def appNew : AppState where
  media_files := []
  selected := some 0
  filter_options := filterOptionsDefault
  active_filters := []
  mode := AppMode.Normal
  input := ""
  selected_tab := 0
  raw_output_scroll := 0
  notification := none

/-! ## Path handling (Rust `Path::file_stem` / `Path::extension`) -/

/-- The path's file name: the last non-empty `/`-separated component
(`.`/`..` components are not modelled; no claim input uses them). -/
def fileNameOf (path : List Char) : List Char :=
  ((splitOnChar '/' path).filter (fun l => !l.isEmpty)).getLastD []

/-- Index of the last `.` in a file name. -/
def lastDotIdx (l : List Char) : Option Nat :=
  (idxOfL '.' l.reverse).map (fun i => l.length - 1 - i)

/-- Rust `file_stem` and `extension` on a file name, with `None`
defaulted to the empty string as in `analyze_file`'s
`unwrap_or_default()`: no dot, or a dot only at position 0 (hidden
file), leaves the whole name as the stem and no extension. -/
def fileStemExt (fname : List Char) : List Char × List Char :=
  match lastDotIdx fname with
  | none => (fname, [])
  | some 0 => (fname, [])
  | some i => (fname.take i, fname.drop (i + 1))

/-! ## Catalogue, filter engine and state machine (`App` methods) -/

/-- `App::analyze_file`, given the probe's captured stdout text
(`raw_output`): name/container from the path, the four derived fields
from the raw text. -/
def analyze_file (path : String) (raw_output : String) : MediaInfo :=
  let se := fileStemExt (fileNameOf path.toList)
  { name := String.mk se.1
    container := String.mk se.2
    codec := extract_codec raw_output
    resolution := extract_resolution raw_output
    frame_rate := extract_frame_rate raw_output
    bitrate := extract_bitrate raw_output
    path := path
    raw_output := raw_output }

/-- `App::show_notification` (message only; timestamp not modelled). -/
def show_notification (app : AppState) (message : String) : AppState :=
  { app with notification := some message }

/-- `App::clear_all`. -/
def clear_all (app : AppState) : AppState :=
  show_notification
    { app with media_files := [], active_filters := [], selected := some 0 }
    "All files cleared"

/-- `App::next_file`: wraps over `media_files.len()`. -/
def next_file (app : AppState) : AppState :=
  if app.media_files.isEmpty then app
  else
    let i := match app.selected with
      | some i => if app.media_files.length - 1 ≤ i then 0 else i + 1
      | none => 0
    { app with selected := some i }

/-- `App::previous_file`: wraps over `media_files.len()`. -/
def previous_file (app : AppState) : AppState :=
  if app.media_files.isEmpty then app
  else
    let i := match app.selected with
      | some i => if i = 0 then app.media_files.length - 1 else i - 1
      | none => 0
    { app with selected := some i }

/-- The field of a record that a filter type targets. -/
def filterField (file : MediaInfo) : FilterType → String
  | FilterType.Container => file.container
  | FilterType.Codec => file.codec
  | FilterType.Resolution => file.resolution
  | FilterType.FrameRate => file.frame_rate
  | FilterType.Bitrate => file.bitrate

/-- `App::get_filtered_files` (record values in place of `&MediaInfo`
references; the Rust function never mutates `self`). -/
def get_filtered_files (app : AppState) : List MediaInfo :=
  if app.active_filters.isEmpty then app.media_files
  else
    app.media_files.filter (fun file =>
      app.active_filters.all (fun f => strContains (filterField file f.filter_type) f.value))

/-- The environment of externally determined facts a transition can
consult: whether a path exists (`Path::new(path).exists()`), the probe
subprocess outcome (`none` = `Command::output()` failed to launch;
`some raw` = captured, lossily decoded stdout), and the externally
formatted texts interpolated into the two timing/error notifications. -/
structure ExtEnv where
  pathExists : String → Bool
  probe : String → Option String
  elapsedText : String
  probeErrText : String

/-- `App::add_file`: missing path → notification only; launch failure →
error notification; success → append the analyzed record and notify with
the elapsed time. -/
def add_file (env : ExtEnv) (app : AppState) (path : String) : AppState :=
  if !env.pathExists path then
    show_notification app "File does not exist"
  else
    match env.probe path with
    | some raw =>
      show_notification
        { app with media_files := app.media_files ++ [analyze_file path raw] }
        ("File analyzed in " ++ env.elapsedText ++ "s")
    | none =>
      show_notification app ("Error analyzing file: " ++ env.probeErrText)

/-- The key presses `run_app` dispatches on. -/
inductive KeyCode where
  | char (c : Char)
  | down
  | up
  | enter
  | esc
  | tab
  deriving DecidableEq

/-- The `AppMode::Normal` arm of `run_app`'s key dispatch: `none`
means process exit (the `'q'` key). -/
def stepNormal (app : AppState) (key : KeyCode) : Option AppState :=
  match key with
  | KeyCode.char c =>
    if c = 'q' then none
    else if c = 'a' then some { app with mode := AppMode.AddFile }
    else if c = 'r' then some { app with mode := AppMode.ShowRawOutput }
    else if c = 'h' then some { app with mode := AppMode.Help }
    else if c = 'c' then some (clear_all app)
    else if c = 'j' then some (next_file app)
    else if c = 'k' then some (previous_file app)
    else some app
  | KeyCode.down => some (next_file app)
  | KeyCode.up => some (previous_file app)
  | KeyCode.tab => some { app with selected_tab := (app.selected_tab + 1) % 3 }
  | _ => some app

/-- The `AppMode::AddFile` arm: Enter analyzes a non-empty buffer and
always returns to Normal; Esc discards the buffer; other keys go to
the input buffer (only character insertion is modelled). -/
def stepAddFile (env : ExtEnv) (app : AppState) (key : KeyCode) : Option AppState :=
  match key with
  | KeyCode.enter =>
    if app.input = "" then some { app with mode := AppMode.Normal }
    else some { add_file env app app.input with input := "", mode := AppMode.Normal }
  | KeyCode.esc => some { app with input := "", mode := AppMode.Normal }
  | KeyCode.char c => some { app with input := app.input.push c }
  | _ => some app

/-- The `AppMode::ShowRawOutput` arm: Esc leaves, Up/Down scroll
(Up floored at 0, Down unbounded). -/
def stepRawOutput (app : AppState) (key : KeyCode) : Option AppState :=
  match key with
  | KeyCode.esc => some { app with mode := AppMode.Normal }
  | KeyCode.up => some { app with raw_output_scroll := app.raw_output_scroll - 1 }
  | KeyCode.down => some { app with raw_output_scroll := app.raw_output_scroll + 1 }
  | _ => some app

/-- The `AppMode::Help` arm: Esc leaves. -/
def stepHelp (app : AppState) (key : KeyCode) : Option AppState :=
  match key with
  | KeyCode.esc => some { app with mode := AppMode.Normal }
  | _ => some app

/-- Dispatch of one iteration of `run_app`'s event loop on a key
press, by current mode; `none` means process exit. -/
def step (env : ExtEnv) (app : AppState) (key : KeyCode) : Option AppState :=
  match app.mode with
  | AppMode.Normal => stepNormal app key
  | AppMode.AddFile => stepAddFile env app key
  | AppMode.ShowRawOutput => stepRawOutput app key
  | AppMode.Help => stepHelp app key

/-- The raw text `render_raw_output` displays: the unfiltered catalogue
indexed by the selection cursor, else "No file selected". -/
def raw_output_content (app : AppState) : String :=
  match app.selected.bind (fun i => app.media_files[i]?) with
  | some file => file.raw_output
  | none => "No file selected"

/-! ## Spec-side reference definitions

These restate the spec's wording of the same operations, for the
refinement theorems that compare the code's loops against them. -/

/-- A record satisfies a predicate when the targeted field contains the
match value as a substring (spec §3, FilterPredicate semantics). -/
def predSatisfied (file : MediaInfo) (f : ActiveFilter) : Bool :=
  strContains (filterField file f.filter_type) f.value

/-- Spec §4.3 `view(catalogue, predicates)`: the catalogue-order
subsequence of records satisfying every predicate. -/
def viewSpec (files : List MediaInfo) (preds : List ActiveFilter) : List MediaInfo :=
  files.filter (fun file => preds.all (predSatisfied file))

/-- Spec §9: an ordered table of (token list, label) pairs, first match
wins; an entry matches when any of its tokens occurs in the text. -/
def firstMatchTable (output : String) : List (List String × String) → String
  | [] => "Unknown"
  | (tokens, label) :: rest =>
    if tokens.any (fun t => strContains output t) then label
    else firstMatchTable output rest

/-- The codec rule table of spec §4.1. -/
def codecTable : List (List String × String) :=
  [(["h264"], "H.264"), (["hevc", "h265"], "H.265"), (["vp9"], "VP9"),
   (["av01"], "AV1"), (["hap"], "Hap"), (["mjpeg"], "MJPEG")]

/-- The frame-rate rule table of spec §4.1. -/
def frameRateTable : List (List String × String) :=
  [(["25/1", "\"25\""], "25"), (["30/1", "\"30\""], "30"),
   (["24/1", "\"24\""], "24"), (["60/1", "\"60\""], "60")]

/-- Per-line resolution rule (spec §4.1): `none` when the line is not a
candidate or carries no known token pair. -/
def resLine? (line : List Char) : Option String :=
  if strContainsL line ("width".toList) && strContainsL line ("height".toList) then
    if strContainsL line ("1920".toList) && strContainsL line ("1080".toList) then some "1920x1080"
    else if strContainsL line ("1280".toList) && strContainsL line ("720".toList) then some "1280x720"
    else if strContainsL line ("3840".toList) && strContainsL line ("2160".toList) then some "3840x2160"
    else none
  else none

/-- Per-line bitrate rule: `none` when the line is not a candidate or
its value does not parse. -/
def bitrateLine? (line : List Char) : Option String :=
  if strContainsL line ("bit_rate".toList) && !strContainsL line ("max_bit_rate".toList) then
    (bitrateLineVal? line).map (fun q => formatOneFrac (divMega q))
  else none

/-- The bitrate rule as claim C3 words it: ONLY the first qualifying
line (contains "bit_rate", not "max_bit_rate") is used, and a parse
failure there yields "Unknown".  Stated from the claim's words for
comparison against `extract_bitrate`. -/
def extract_bitrate_claim (output : String) : String :=
  match (rustLines output.toList).find?
      (fun l => strContainsL l ("bit_rate".toList) && !strContainsL l ("max_bit_rate".toList)) with
  | none => "Unknown"
  | some line => ((bitrateLineVal? line).map (fun q => formatOneFrac (divMega q))).getD "Unknown"

/-! ## Concrete fixtures -/

/-- An environment in which no path exists and no probe launches. -/
def extDummy : ExtEnv :=
  ⟨fun _ => false, fun _ => none, "", ""⟩

/-- An app state with the given catalogue and active filters, and
`App::new()` values everywhere else. -/
def mkApp (files : List MediaInfo) (preds : List ActiveFilter) : AppState :=
  { appNew with media_files := files, active_filters := preds }

/-- A catalogue record with codec H.264. -/
def recA : MediaInfo :=
  ⟨"a", "mp4", "H.264", "1920x1080", "25", "8.0", "/m/a.mp4", "RAW-A"⟩

/-- A catalogue record with codec VP9. -/
def recB : MediaInfo :=
  ⟨"b", "mp4", "VP9", "1280x720", "30", "1.5", "/m/b.mp4", "RAW-B"⟩

/-- Two records in the catalogue, a codec filter keeping only `recB`,
selection cursor at 0. -/
def appFiltered : AppState :=
  mkApp [recA, recB] [⟨FilterType.Codec, "VP9"⟩]

/-- A Browsing-mode state whose raw-output scroll offset is 3. -/
def appScrolled : AppState :=
  { appNew with raw_output_scroll := 3 }

/-- An AddFile-mode state whose input buffer holds a path. -/
def appAdding : AppState :=
  { appNew with mode := AppMode.AddFile, input := "/nope" }

/-- Raw text whose first qualifying bitrate line fails to parse and
whose second parses as 5 Mbps. -/
def cexBitrateText : String :=
  "bit_rate: oops,\nbit_rate: \"5000000\","

/-- Raw text with `width`+`1920` on one line and `height`+`1080` on
another, no single line holding all four tokens. -/
def cexResText : String :=
  "\"width\": 1920,\n\"height\": 1080,"

/-! ## Helper lemmas -/

/-- The bitrate loop is the first hit of the per-line rule. -/
theorem bitrateGo_eq_findSome (ls : List (List Char)) :
    bitrateGo ls = (ls.findSome? bitrateLine?).getD "Unknown" := by
  induction ls with
  | nil => rfl
  | cons l t ih =>
    cases hb : strContainsL l ("bit_rate".toList) with
    | false => simp_all [bitrateGo, bitrateLine?, List.findSome?_cons, hb, ih]
    | true =>
      cases hm : strContainsL l ("max_bit_rate".toList) with
      | true => simp_all [bitrateGo, bitrateLine?, List.findSome?_cons, hb, hm, ih]
      | false =>
        cases hv : bitrateLineVal? l with
        | none => simp_all [bitrateGo, bitrateLine?, List.findSome?_cons, hb, hm, hv, ih]
        | some q => simp_all [bitrateGo, bitrateLine?, List.findSome?_cons, hb, hm, hv]

/-- The resolution loop is the first hit of the per-line rule. -/
theorem resolutionGo_eq_findSome (ls : List (List Char)) :
    resolutionGo ls = (ls.findSome? resLine?).getD "Unknown" := by
  induction ls with
  | nil => rfl
  | cons l t ih =>
    cases hw : strContainsL l ("width".toList) with
    | false => simp_all [resolutionGo, resLine?, List.findSome?_cons, hw, ih]
    | true =>
      cases hh : strContainsL l ("height".toList) with
      | false => simp_all [resolutionGo, resLine?, List.findSome?_cons, hw, hh, ih]
      | true =>
        cases h1a : strContainsL l ("1920".toList) <;>
          cases h1b : strContainsL l ("1080".toList) <;>
          cases h2a : strContainsL l ("1280".toList) <;>
          cases h2b : strContainsL l ("720".toList) <;>
          cases h3a : strContainsL l ("3840".toList) <;>
          cases h3b : strContainsL l ("2160".toList) <;>
          simp_all [resolutionGo, resLine?, List.findSome?_cons, hw, hh,
            h1a, h1b, h2a, h2b, h3a, h3b, ih]

/-- Every bitrate the loop produces is "Unknown" or a one-fractional-
digit formatted rational. -/
theorem bitrateGo_shape (ls : List (List Char)) :
    bitrateGo ls = "Unknown" ∨ ∃ f : FloatVal, bitrateGo ls = formatOneFrac f := by
  induction ls with
  | nil => exact Or.inl rfl
  | cons l t ih =>
    cases hb : strContainsL l ("bit_rate".toList) with
    | false => simp_all [bitrateGo]
    | true =>
      cases hm : strContainsL l ("max_bit_rate".toList) with
      | true => simp_all [bitrateGo]
      | false =>
        cases hv : bitrateLineVal? l with
        | none => simp_all [bitrateGo]
        | some q => exact Or.inr ⟨divMega q, by simp_all [bitrateGo]⟩

/-- A Browsing-mode state whose catalogue has records but whose
filtered view is empty. -/
def appEmptyView : AppState :=
  mkApp [recA, recB] [⟨FilterType.Codec, "zzz"⟩]

/-! ## Claims -/

/-- C1, counterexample: with catalogue [recA, recB] and a filter whose
view is the single record [recB], the cursor sits at the view's last
index 0, yet next/previous move it to 1 — the code wraps over the
unfiltered catalogue's length, not the filtered view's; and with a
non-empty catalogue whose view is empty, next is not a no-op. -/
theorem c1_counterexample :
    (get_filtered_files appFiltered).length = 1 ∧
    appFiltered.selected = some 0 ∧
    (next_file appFiltered).selected = some 1 ∧
    (previous_file appFiltered).selected = some 1 ∧
    get_filtered_files appEmptyView = [] ∧
    next_file appEmptyView ≠ appEmptyView := by
  decide

/-- C1 (amended): in Browsing mode the next/previous keys move the
selection cursor with wraparound over the UNFILTERED CATALOGUE's
length — at cursor ≥ N-1 of an N-record catalogue, next yields 0; at
cursor 0, previous yields N-1 — and both are no-ops exactly when the
catalogue (not the filtered view) is empty. -/
theorem c1_amended_catalogue_wrap (env : ExtEnv) (app : AppState) :
    (app.mode = AppMode.Normal →
      step env app KeyCode.down = some (next_file app) ∧
      step env app KeyCode.up = some (previous_file app) ∧
      step env app (KeyCode.char 'j') = some (next_file app) ∧
      step env app (KeyCode.char 'k') = some (previous_file app)) ∧
    (app.media_files = [] → next_file app = app ∧ previous_file app = app) ∧
    (∀ i, app.media_files ≠ [] → app.selected = some i →
      (next_file app).selected = some (if app.media_files.length - 1 ≤ i then 0 else i + 1) ∧
      (previous_file app).selected = some (if i = 0 then app.media_files.length - 1 else i - 1)) := by
  refine ⟨fun h => ?_, fun h => ?_, fun i hne hsel => ?_⟩
  · simp [step, stepNormal, h]
  · simp [next_file, previous_file, h]
  · have hne' : app.media_files.isEmpty = false := by
      cases hmf : app.media_files with
      | nil => exact absurd hmf hne
      | cons a t => rfl
    constructor
    · simp [next_file, hne', hsel]
    · simp [previous_file, hne', hsel]

/-- C1 witness: the amended statement at the empty catalogue and at
`appFiltered` (catalogue of 2, cursor 0). -/
theorem c1_amended_witness :
    next_file (mkApp [] []) = mkApp [] [] ∧
    (next_file appFiltered).selected = some 1 := by
  constructor
  · exact ((c1_amended_catalogue_wrap extDummy (mkApp [] [])).2.1 rfl).1
  · exact (((c1_amended_catalogue_wrap extDummy appFiltered).2.2 0 (by decide) rfl).1).trans
      (by decide)

/-- C2: `get_filtered_files` is the spec's `view`: all records in
catalogue order under an empty predicate set, otherwise the
catalogue-order subsequence of records whose targeted field contains
each predicate's value as a substring (conjunction over predicates;
substring, not equality — "1" matches bitrates "10.0" and "1.5");
the catalogue is not consulted or changed otherwise. -/
theorem c2_view_subsequence (files : List MediaInfo) (preds : List ActiveFilter) :
    get_filtered_files (mkApp files preds) = viewSpec files preds ∧
    get_filtered_files (mkApp files []) = files ∧
    List.Sublist (get_filtered_files (mkApp files preds)) files ∧
    strContains "10.0" "1" = true ∧
    strContains "1.5" "1" = true := by
  have h1 : ∀ ps, get_filtered_files (mkApp files ps) = viewSpec files ps := by
    intro ps
    cases ps with
    | nil => simp [get_filtered_files, viewSpec, mkApp, appNew, predSatisfied]
    | cons p pt => rfl
  refine ⟨h1 preds, ?_, ?_, by decide, by decide⟩
  · simpa [viewSpec] using h1 []
  · rw [h1 preds]
    exact List.filter_sublist files

/-- C3, counterexample: in `cexBitrateText` the first line containing
"bit_rate" (and not "max_bit_rate") is `bit_rate: oops,`, whose value
fails to parse; the claim demands "Unknown", but the code keeps
scanning and derives "5.0" from the second qualifying line.
`extract_bitrate_claim` is the claim's own first-line-only rule. -/
theorem c3_counterexample :
    (rustLines cexBitrateText.toList).head? = some ("bit_rate: oops,".toList) ∧
    extract_bitrate_claim cexBitrateText = "Unknown" ∧
    extract_bitrate cexBitrateText = "5.0" := by
  refine ⟨by decide, by decide, by decide⟩

/-- C3 (amended): the bitrate field is derived from the FIRST line that
both qualifies (contains "bit_rate" but not "max_bit_rate") and
successfully yields a parsed value between its first colon and the
following comma — a qualifying line that fails to parse is skipped and
the scan continues — and is "Unknown" only when no line succeeds; a
lone `bit_rate: "5000000",` line yields exactly "5.0" and a lone
`max_bit_rate: "9000000",` line yields "Unknown". -/
theorem c3_amended_first_success (output : String) :
    extract_bitrate output = ((rustLines output.toList).findSome? bitrateLine?).getD "Unknown" ∧
    extract_bitrate "bit_rate: \"5000000\"," = "5.0" ∧
    extract_bitrate "max_bit_rate: \"9000000\"," = "Unknown" :=
  ⟨bitrateGo_eq_findSome (rustLines output.toList), by decide, by decide⟩

/-- C4: resolution needs single-line co-occurrence: the scan is the
first hit of the per-line rule `resLine?` (candidate lines must contain
both "width" and "height", and the token pair must sit in one line);
`cexResText` splits the tokens over two lines and yields "Unknown". -/
theorem c4_resolution_single_line (output : String) :
    extract_resolution output = ((rustLines output.toList).findSome? resLine?).getD "Unknown" ∧
    rustLines cexResText.toList = ["\"width\": 1920,".toList, "\"height\": 1080,".toList] ∧
    strContains "\"width\": 1920," "width" = true ∧
    strContains "\"width\": 1920," "1920" = true ∧
    strContains "\"width\": 1920," "height" = false ∧
    strContains "\"height\": 1080," "height" = true ∧
    strContains "\"height\": 1080," "1080" = true ∧
    strContains "\"height\": 1080," "width" = false ∧
    extract_resolution cexResText = "Unknown" :=
  ⟨resolutionGo_eq_findSome (rustLines output.toList), by decide, by decide, by decide,
    by decide, by decide, by decide, by decide, by decide⟩

/-- C5: codec and frame rate are the fixed ordered first-match
whole-text substring tables of the spec; on a text holding both "30/1"
and "25/1" the first-listed rule (25) wins. -/
theorem c5_fixed_tables (output : String) :
    extract_codec output = firstMatchTable output codecTable ∧
    extract_frame_rate output = firstMatchTable output frameRateTable ∧
    strContains "avg_frame_rate=30/1 r_frame_rate=25/1" "30/1" = true ∧
    strContains "avg_frame_rate=30/1 r_frame_rate=25/1" "25/1" = true ∧
    extract_frame_rate "avg_frame_rate=30/1 r_frame_rate=25/1" = "25" := by
  refine ⟨?_, ?_, by decide, by decide, by decide⟩
  · simp only [extract_codec, firstMatchTable, codecTable, List.any_cons, List.any_nil,
      Bool.or_false]
  · simp only [extract_frame_rate, firstMatchTable, frameRateTable, List.any_cons, List.any_nil,
      Bool.or_false]

/-- Every codec the table produces is in the closed enumeration. -/
theorem extract_codec_mem (raw : String) :
    extract_codec raw ∈ ["H.264", "H.265", "VP9", "AV1", "Hap", "MJPEG", "Unknown"] := by
  unfold extract_codec
  split_ifs <;> simp

/-- Every resolution the scan produces is in the closed enumeration. -/
theorem resolutionGo_mem (ls : List (List Char)) :
    resolutionGo ls ∈ ["1920x1080", "1280x720", "3840x2160", "Unknown"] := by
  induction ls with
  | nil => simp [resolutionGo]
  | cons l t ih =>
    rw [resolutionGo]
    split_ifs <;> first | exact ih | simp

/-- Every frame rate the table produces is in the closed enumeration. -/
theorem extract_frame_rate_mem (raw : String) :
    extract_frame_rate raw ∈ ["25", "30", "24", "60", "Unknown"] := by
  unfold extract_frame_rate
  split_ifs <;> simp

/-- C6: the clear key in Browsing mode runs `clear_all`: catalogue
empty (hence the filtered view empty), predicates empty, cursor at 0,
mode still Browsing, and the notification "All files cleared". -/
theorem c6_clear_key (env : ExtEnv) (app : AppState) (h : app.mode = AppMode.Normal) :
    step env app (KeyCode.char 'c') = some (clear_all app) ∧
    (clear_all app).media_files = [] ∧
    get_filtered_files (clear_all app) = [] ∧
    (clear_all app).active_filters = [] ∧
    (clear_all app).selected = some 0 ∧
    (clear_all app).mode = AppMode.Normal ∧
    (clear_all app).notification = some "All files cleared" := by
  refine ⟨?_, rfl, rfl, rfl, rfl, ?_, rfl⟩
  · simp [step, stepNormal, h]
  · simp [clear_all, show_notification, h]

/-- C6 witness: clearing from a state with records, filters and a
notification already present. -/
theorem c6_clear_witness :
    step extDummy appFiltered (KeyCode.char 'c') = some (clear_all appFiltered) ∧
    (clear_all appFiltered).media_files = [] ∧
    get_filtered_files (clear_all appFiltered) = [] ∧
    (clear_all appFiltered).active_filters = [] ∧
    (clear_all appFiltered).selected = some 0 ∧
    (clear_all appFiltered).mode = AppMode.Normal ∧
    (clear_all appFiltered).notification = some "All files cleared" :=
  c6_clear_key extDummy appFiltered rfl

/-- C7: confirming a non-empty path that does not exist on the
filesystem surfaces the failure only as the notification "File does not
exist" — the catalogue is untouched (no record appended) and the
session continues in Browsing mode. -/
theorem c7_missing_path (env : ExtEnv) (app : AppState) (h : app.mode = AppMode.AddFile)
    (hne : app.input ≠ "") (hex : env.pathExists app.input = false) :
    step env app KeyCode.enter =
      some { app with notification := some "File does not exist",
                      input := "", mode := AppMode.Normal } ∧
    (step env app KeyCode.enter).map AppState.media_files = some app.media_files ∧
    (step env app KeyCode.enter).map AppState.mode = some AppMode.Normal := by
  have h1 : step env app KeyCode.enter =
      some { app with notification := some "File does not exist",
                      input := "", mode := AppMode.Normal } := by
    simp [step, stepAddFile, h, hne, add_file, hex, show_notification]
  exact ⟨h1, by rw [h1]; rfl, by rw [h1]; rfl⟩

/-- C7 witness: confirming "/nope" in an environment where no path
exists. -/
theorem c7_missing_path_witness :
    step extDummy appAdding KeyCode.enter =
      some { appAdding with notification := some "File does not exist",
                            input := "", mode := AppMode.Normal } :=
  (c7_missing_path extDummy appAdding rfl (by decide) rfl).1

/-- C8, counterexample: from a Browsing state whose scroll offset is 3,
the raw key enters ViewingRawOutput but the scroll offset stays 3, not
0 — `run_app` never resets `raw_output_scroll` on entry. -/
theorem c8_counterexample :
    appScrolled.raw_output_scroll = 3 ∧
    (step extDummy appScrolled (KeyCode.char 'r')).map AppState.mode =
      some AppMode.ShowRawOutput ∧
    (step extDummy appScrolled (KeyCode.char 'r')).map AppState.raw_output_scroll = some 3 := by
  decide

/-- C8 (amended): the raw key in Browsing mode enters ViewingRawOutput
leaving every other field — the scroll offset included — unchanged;
the offset is 0 only because `App::new` started it there and nothing
reset it since. -/
theorem c8_amended_scroll_kept (env : ExtEnv) (app : AppState) (h : app.mode = AppMode.Normal) :
    step env app (KeyCode.char 'r') = some { app with mode := AppMode.ShowRawOutput } := by
  simp [step, stepNormal, h]

/-- C8 witness: the amended statement at the scrolled state. -/
theorem c8_amended_witness :
    step extDummy appScrolled (KeyCode.char 'r') =
      some { appScrolled with mode := AppMode.ShowRawOutput } :=
  c8_amended_scroll_kept extDummy appScrolled rfl

/-- Whatever digit the rounding picks, every formatted value is "inf",
"-inf", "NaN", or a decimal with exactly one fractional digit
(optionally negative) — a shape that does not depend on whether the
exact decimal or the nearest binary double is rounded. -/
theorem formatOneFrac_shape (f : FloatVal) :
    formatOneFrac f = "inf" ∨ formatOneFrac f = "-inf" ∨ formatOneFrac f = "NaN" ∨
    ∃ a d : Nat, d < 10 ∧
      (formatOneFrac f = toString a ++ "." ++ toString d ∨
       formatOneFrac f = "-" ++ (toString a ++ "." ++ toString d)) := by
  cases f with
  | nan => exact Or.inr (Or.inr (Or.inl rfl))
  | inf b => cases b with
    | true => exact Or.inr (Or.inl rfl)
    | false => exact Or.inl rfl
  | finite v =>
    refine Or.inr (Or.inr (Or.inr ?_))
    by_cases h : v.num < 0
    · exact ⟨roundTenths v.num.natAbs v.scale / 10, roundTenths v.num.natAbs v.scale % 10,
        Nat.mod_lt _ (by norm_num), Or.inr (by simp [formatOneFrac, h, formatTenths])⟩
    · exact ⟨roundTenths v.num.toNat v.scale / 10, roundTenths v.num.toNat v.scale % 10,
        Nat.mod_lt _ (by norm_num), Or.inl (by simp [formatOneFrac, h, formatTenths])⟩

/-- The bitrate field is "Unknown" or has the shape of a `\x7b:.1\x7d`
formatted value. -/
theorem extract_bitrate_shape (raw : String) :
    extract_bitrate raw = "Unknown" ∨ extract_bitrate raw = "inf" ∨
    extract_bitrate raw = "-inf" ∨ extract_bitrate raw = "NaN" ∨
    ∃ a d : Nat, d < 10 ∧
      (extract_bitrate raw = toString a ++ "." ++ toString d ∨
       extract_bitrate raw = "-" ++ (toString a ++ "." ++ toString d)) := by
  rcases bitrateGo_shape (rustLines raw.toList) with h | ⟨f, hf⟩
  · exact Or.inl h
  · have hs := formatOneFrac_shape f
    have he : extract_bitrate raw = formatOneFrac f := hf
    rcases hs with h1 | h2 | h3 | ⟨a, d, hd, h4 | h5⟩
    · exact Or.inr (Or.inl (he.trans h1))
    · exact Or.inr (Or.inr (Or.inl (he.trans h2)))
    · exact Or.inr (Or.inr (Or.inr (Or.inl (he.trans h3))))
    · exact Or.inr (Or.inr (Or.inr (Or.inr ⟨a, d, hd, Or.inl (he.trans h4)⟩)))
    · exact Or.inr (Or.inr (Or.inr (Or.inr ⟨a, d, hd, Or.inr (he.trans h5)⟩)))

/-- C9, counterexample: analyzing "video.webm" yields container "webm"
and name "video" — copied from the path, not drawn from a closed set —
and the derived bitrate escapes every closed enumeration too: a
`bit_rate: "8000000",` line yields "8.0" (not in the bitrate filter
list, not "Unknown"), and a `bit_rate: inf,` line — which Rust's `f64`
parse accepts — yields "inf". -/
theorem c9_counterexample :
    (analyze_file "video.webm" "").container = "webm" ∧
    "webm" ∉ filterOptionsDefault.containers ∧
    "webm" ≠ "Unknown" ∧
    (analyze_file "video.webm" "").name = "video" ∧
    (analyze_file "video.webm" "bit_rate: \"8000000\",").bitrate = "8.0" ∧
    "8.0" ∉ filterOptionsDefault.bitrates ∧
    "8.0" ≠ "Unknown" ∧
    (analyze_file "video.webm" "bit_rate: inf,").bitrate = "inf" ∧
    "inf" ≠ "Unknown" := by
  refine ⟨by decide, by decide, by decide, by decide, by decide, by decide, by decide,
    by decide, by decide⟩

/-- C9 (amended): for every record `analyze_file` produces, the codec,
resolution and frame-rate fields are members of their closed
enumerations or "Unknown"; the name and container are derived purely
from the path, independent of the tool's output, and unconstrained by
any enumeration; and the bitrate is "Unknown" or the `\x7b:.1\x7d`
formatting of the parsed value — a decimal with exactly one fractional
digit, optionally negative, or "inf"/"-inf"/"NaN" for non-finite
parses. -/
theorem c9_amended_derived_fields (path raw raw' : String) :
    (analyze_file path raw).codec ∈ ["H.264", "H.265", "VP9", "AV1", "Hap", "MJPEG", "Unknown"] ∧
    (analyze_file path raw).resolution ∈ ["1920x1080", "1280x720", "3840x2160", "Unknown"] ∧
    (analyze_file path raw).frame_rate ∈ ["25", "30", "24", "60", "Unknown"] ∧
    (analyze_file path raw).name = (analyze_file path raw').name ∧
    (analyze_file path raw).container = (analyze_file path raw').container ∧
    ((analyze_file path raw).bitrate = "Unknown" ∨
      (analyze_file path raw).bitrate = "inf" ∨
      (analyze_file path raw).bitrate = "-inf" ∨
      (analyze_file path raw).bitrate = "NaN" ∨
      ∃ a d : Nat, d < 10 ∧
        ((analyze_file path raw).bitrate = toString a ++ "." ++ toString d ∨
         (analyze_file path raw).bitrate = "-" ++ (toString a ++ "." ++ toString d))) := by
  refine ⟨extract_codec_mem raw, resolutionGo_mem (rustLines raw.toList), ?_, rfl, rfl, ?_⟩
  · exact extract_frame_rate_mem raw
  · exact extract_bitrate_shape raw

/-- C10: ViewingRawOutput shows the record found by indexing the
UNFILTERED catalogue with the cursor, or "No file selected" when no
index is selected or it is out of bounds; in `appFiltered` the filtered
view's record at the cursor is `recB` but the raw output shown is
`recA`'s. -/
theorem c10_raw_from_catalogue (app : AppState) :
    (∀ i, app.selected = some i →
      raw_output_content app =
        ((app.media_files[i]?).map MediaInfo.raw_output).getD "No file selected") ∧
    (app.selected = none → raw_output_content app = "No file selected") ∧
    raw_output_content appFiltered = "RAW-A" ∧
    (get_filtered_files appFiltered)[0]? = some recB ∧
    recB.raw_output = "RAW-B" ∧
    ("RAW-A" : String) ≠ "RAW-B" := by
  refine ⟨fun i hi => ?_, fun hn => ?_, by decide, by decide, by decide, by decide⟩
  · cases hm : app.media_files[i]? with
    | none => simp [raw_output_content, hi, hm]
    | some f => simp [raw_output_content, hi, hm]
  · simp [raw_output_content, hn]

/-- C10 witness: the general indexing rule at `appFiltered`, cursor 0. -/
theorem c10_witness :
    raw_output_content appFiltered =
      ((appFiltered.media_files[0]?).map MediaInfo.raw_output).getD "No file selected" :=
  (c10_raw_from_catalogue appFiltered).1 0 rfl
